import Mathlib

/-!
Shallow embedding of the task-orchestration core of the repository
(job manager, event log, session busy tracker, protocol client polling),
translated from:
  src/functional_call/core/event_bus.py
  src/functional_call/core/job_manager.py
  src/functional_call/memory/session_store.py
  src/functional_call/tools/robot_client.py
  src/functional_call/src/sr_modbus_sdk.py / sr_modbus_model.py

Modelling conventions:
- Python dicts keyed by strings become association lists with the helpers
  lookupA / updateA / removeA below (python dict insert/update/pop).
- Wall-clock time in polling loops is abstracted to the loop tick count:
  each iteration of the 1-second poll loop advances elapsed time by 1.
- The controller link is abstracted to an oracle: each poll iteration is
  given the stop-signal value and the outcome of the (already internally
  retried) register read for that iteration.
- Timestamps (started_ts / ended_ts, event ts) are not modelled; no claim
  mentions them.
-/

namespace FunctionalCall

/-- Association-list lookup, mirroring python `dict.get`. -/
def lookupA {β : Type} : List (String × β) → String → Option β
  | [], _ => none
  | (k, v) :: rest, key => if k = key then some v else lookupA rest key

/-- Association-list insert/update, mirroring python `dict[key] = value`. -/
def updateA {β : Type} : List (String × β) → String → β → List (String × β)
  | [], key, v => [(key, v)]
  | (k, w) :: rest, key, v =>
      if k = key then (key, v) :: rest else (k, w) :: updateA rest key v

/-- Association-list removal, mirroring python `dict.pop(key, None)`. -/
def removeA {β : Type} : List (String × β) → String → List (String × β)
  | [], _ => []
  | (k, w) :: rest, key =>
      if k = key then removeA rest key else (k, w) :: removeA rest key

/-! ## Event bus (src/functional_call/core/event_bus.py) -/

/-- One event of a request's stream (core/models.py VoiceEvent); the
timestamp field is omitted (real time is not modelled). -/
structure VoiceEvent where
  event_id : Nat
  type : String
  speak_text : String
  data : List (String × String)
deriving Repr, DecidableEq

/-- Per-request stream state (event_bus.py RequestEventStream). -/
structure RequestEventStream where
  request_id : String
  events : List VoiceEvent
  done : Bool
  last_event_id : Nat
deriving Repr, DecidableEq

/-- EventBus state: the retention cap and the per-request streams dict. -/
structure EventBus where
  retention_max : Nat
  streams : List (String × RequestEventStream)
deriving Repr, DecidableEq

/-- Retention truncation in EventBus.emit:
`if len(stream.events) > retention_max: stream.events = stream.events[-retention_max:]`.
Note the python slice `[-0:]` is the whole list, hence the cap = 0 branch. -/
def retainTail (cap : Nat) (evs : List VoiceEvent) : List VoiceEvent :=
  if cap < evs.length then
    (if cap = 0 then evs else evs.drop (evs.length - cap))
  else evs

/-- EventBus.ensure_stream: insert an empty stream if the request is new. -/
def EventBus.ensure_stream (b : EventBus) (request_id : String) : EventBus :=
  match lookupA b.streams request_id with
  | some _ => b
  | none =>
      let empty : RequestEventStream :=
        { request_id := request_id, events := [], done := false, last_event_id := 0 }
      { b with streams := updateA b.streams request_id empty }

/-- EventBus.emit: ensure the stream, assign `last_event_id + 1` as the new
event id, append the event, and truncate to the retention cap. -/
def EventBus.emit (b : EventBus) (request_id : String) (type speak_text : String)
    (data : List (String × String)) : EventBus × VoiceEvent :=
  let empty : RequestEventStream :=
    { request_id := request_id, events := [], done := false, last_event_id := 0 }
  let s := (lookupA b.streams request_id).getD empty
  let ev : VoiceEvent :=
    { event_id := s.last_event_id + 1, type := type, speak_text := speak_text, data := data }
  let s' : RequestEventStream :=
    { s with events := retainTail b.retention_max (s.events ++ [ev]),
             last_event_id := s.last_event_id + 1 }
  ({ b with streams := updateA b.streams request_id s' }, ev)

/-- EventBus.mark_done: ensure the stream and set its done flag. -/
def EventBus.mark_done (b : EventBus) (request_id : String) (done : Bool) : EventBus :=
  let empty : RequestEventStream :=
    { request_id := request_id, events := [], done := false, last_event_id := 0 }
  let s := (lookupA b.streams request_id).getD empty
  let s' : RequestEventStream := { s with done := done }
  { b with streams := updateA b.streams request_id s' }

/-- EventBus.get_events: events with `event_id > after`, capped at `limit`
(python `if limit and len(new_events) > limit` — limit 0 is falsy), with the
done flag and the next cursor. -/
def EventBus.get_events (b : EventBus) (request_id : String) (after limit : Nat) :
    List VoiceEvent × Bool × Nat :=
  match lookupA b.streams request_id with
  | none => ([], false, after)
  | some s =>
      let new_events := s.events.filter (fun e => after < e.event_id)
      let new_events :=
        if limit ≠ 0 ∧ limit < new_events.length then new_events.take limit else new_events
      let next_after := match new_events.getLast? with
        | some e => e.event_id
        | none => after
      (new_events, s.done, next_after)

/-- Per-stream invariant: events strictly increasing in event_id and all
event ids bounded by `last_event_id`. -/
def streamInv (s : RequestEventStream) : Prop :=
  s.events.Pairwise (fun a b => a.event_id < b.event_id) ∧
  ∀ e ∈ s.events, e.event_id ≤ s.last_event_id

/-- Bus invariant: every registered stream satisfies `streamInv`. -/
def busInv (b : EventBus) : Prop :=
  ∀ p ∈ b.streams, streamInv p.2

/-! ## Job manager (src/functional_call/core/job_manager.py) -/

/-- Job status strings of JobInfo.status. -/
inductive JobStatus
  | running
  | completed
  | failed
  | cancelled
deriving Repr, DecidableEq

/-- JobInfo (job_manager.py); started_ts / ended_ts omitted (real time is
not modelled); `stop_event : Bool` models the threading.Event flag. -/
structure JobInfo where
  request_id : String
  session_id : String
  status : JobStatus
  error : Option String
  result_text : Option String
  stop_event : Bool
deriving Repr, DecidableEq

/-- JobManager registry state: the jobs dict and the session index. -/
structure JobManager where
  jobs : List (String × JobInfo)
  session_to_request : List (String × String)
deriving Repr, DecidableEq

/-- JobManager.get: dict lookup of a job by request id. -/
def JobManager.get (m : JobManager) (request_id : String) : Option JobInfo :=
  lookupA m.jobs request_id

/-- JobManager.get_active_job_by_session: follow the session index and
return the job only if it is still running (python `if not req_id` also
rejects the empty string, being falsy). -/
def JobManager.get_active_job_by_session (m : JobManager) (session_id : String) :
    Option JobInfo :=
  match lookupA m.session_to_request session_id with
  | none => none
  | some req_id =>
      if req_id = "" then none
      else
        match lookupA m.jobs req_id with
        | some job => if job.status = JobStatus.running then some job else none
        | none => none

/-- JobManager.cancel_session_job: on the mapped running job, set the stop
event and optimistically mark it cancelled. -/
def JobManager.cancel_session_job (m : JobManager) (session_id : String) : JobManager :=
  match m.get_active_job_by_session session_id with
  | none => m
  | some job =>
      let job' : JobInfo := { job with stop_event := true, status := JobStatus.cancelled }
      { m with jobs := updateA m.jobs job.request_id job' }

/-- Registration phase of JobManager.start: if the session already maps to
a running job, set that job's stop event (its status stays `running`); then
register the new running job and point the session index at it. The thread
body spawned by start is modelled separately as `JobManager.run_wrapper`. -/
def JobManager.start (m : JobManager) (request_id session_id : String) : JobManager :=
  let m1 :=
    match lookupA m.session_to_request session_id with
    | some old_req =>
        match lookupA m.jobs old_req with
        | some old =>
            if old.status = JobStatus.running then
              let old' : JobInfo := { old with stop_event := true }
              { m with jobs := updateA m.jobs old_req old' }
            else m
        | none => m
    | none => m
  let job : JobInfo :=
    { request_id := request_id, session_id := session_id, status := JobStatus.running,
      error := none, result_text := none, stop_event := false }
  { m1 with jobs := updateA m1.jobs request_id job,
            session_to_request := updateA m1.session_to_request session_id request_id }

/-- Outcome of the user-supplied runner: normal return with an optional
result string, or a raised exception with its message. -/
inductive RunnerOutcome
  | ok (result_text : Option String)
  | err (msg : String)
deriving Repr, DecidableEq

/-- Thread body `_run_wrapper` of JobManager.start, as a total function of
the runner's outcome: on normal return record the result and set status
completed unless it already left `running`; on a raised error set status
failed and record the message (the exception is captured, never re-raised);
in both branches call mark_done on the event bus; the finally block pops
the session index entry if it still points at this request. The returned
Bool records that the on_cleanup callback was invoked (the on_done
callback, optional and unused by the cited claims, is not modelled). -/
def JobManager.run_wrapper (m : JobManager) (bus : EventBus) (request_id session_id : String)
    (outcome : RunnerOutcome) : JobManager × EventBus × Bool :=
  let m1 :=
    match outcome with
    | RunnerOutcome.ok r =>
        match lookupA m.jobs request_id with
        | some job =>
            let status' := if job.status = JobStatus.running then JobStatus.completed else job.status
            let job' : JobInfo := { job with result_text := r, status := status' }
            { m with jobs := updateA m.jobs request_id job' }
        | none => m
    | RunnerOutcome.err e =>
        match lookupA m.jobs request_id with
        | some job =>
            let job' : JobInfo := { job with status := JobStatus.failed, error := some e }
            { m with jobs := updateA m.jobs request_id job' }
        | none => m
  let bus1 := bus.mark_done request_id true
  let m2 :=
    if lookupA m1.session_to_request session_id = some request_id then
      { m1 with session_to_request := removeA m1.session_to_request session_id }
    else m1
  (m2, bus1, true)

/-- One observable scheduler step against the job manager: a call to
start(), a call to cancel_session_job(), or a job thread running to
completion with some outcome. -/
inductive JMOp
  | start (request_id session_id : String)
  | cancel_session (session_id : String)
  | finish (request_id session_id : String) (outcome : RunnerOutcome)
deriving Repr, DecidableEq

/-- Apply one scheduler step to the job manager and the event bus. -/
def execOp (st : JobManager × EventBus) (op : JMOp) : JobManager × EventBus :=
  match op with
  | JMOp.start rid sid => (st.1.start rid sid, st.2)
  | JMOp.cancel_session sid => (st.1.cancel_session_job sid, st.2)
  | JMOp.finish rid sid oc =>
      let r := st.1.run_wrapper st.2 rid sid oc
      (r.1, r.2.1)

/-- Run an interleaving of scheduler steps from the initial empty
registries (jobs = {}, session index = {}, fresh event bus, cap 2000). -/
def execOps (ops : List JMOp) : JobManager × EventBus :=
  ops.foldl execOp ({ jobs := [], session_to_request := [] }, { retention_max := 2000, streams := [] })

/-! ## Session busy tracker (src/functional_call/memory/session_store.py) -/

/-- SessionState, restricted to the fields is_busy touches: the
conversation list, plan id and robot-state cache play no role in the
claims. `job_manager` is the `_job_manager` reference the agents assign
before every busy check (none models an unwired reference). -/
structure SessionState where
  session_id : String
  active_request_id : Option String
  job_manager : Option JobManager
deriving Repr

/-- SessionState.is_busy: false if no active_request_id (python falsiness:
the empty string also counts as unset, and is returned false WITHOUT
clearing); true without any check if no job manager reference; otherwise
true iff the job manager holds that job with status running, and in every
other outcome false with active_request_id cleared (self-heal). Returns
the bool together with the (possibly healed) session. -/
def SessionState.is_busy (s : SessionState) : Bool × SessionState :=
  match s.active_request_id with
  | none => (false, s)
  | some rid =>
      if rid = "" then (false, s)
      else
        match s.job_manager with
        | none => (true, s)
        | some m =>
            match m.get rid with
            | some job =>
                if job.status = JobStatus.running then (true, s)
                else (false, { s with active_request_id := none })
            | none => (false, { s with active_request_id := none })

/-! ## Protocol client (robot_client.py, sr_modbus_sdk.py, sr_modbus_model.py) -/

/-- MovementState codes decoded from register 30113 (sr_modbus_model.py). -/
inductive MovementState
  | MT_NA
  | MT_WAIT_FOR_START
  | MT_RUNNING
  | MT_PAUSED
  | MT_FINISHED
  | MT_IN_CANCEL
  | MT_WAIT_FOR_CHECKPOINT
deriving Repr, DecidableEq

/-- MovementResult codes decoded from register 30122 (sr_modbus_model.py). -/
inductive MovementResult
  | MT_TASK_NA
  | MT_TASK_FINISHED
  | MT_TASK_CANCEL
  | MT_TASK_ERROR
deriving Repr, DecidableEq

/-- One movement-task status observation as returned by
SRModbusSdk.get_movement_task_info: the task state, the controller-echoed
task number, and the result pair (target_station and path_no are carried
by the source object but unused by the completion check). -/
structure MovementTaskObs where
  state : MovementState
  no : Nat
  result : MovementResult
  result_value : Int
deriving Repr, DecidableEq

/-- Completion check `check_done` that RobotClient.move_to_station hands to
the poller: done only when the state is MT_FINISHED and the echoed task
number equals ours (or ours is 0); a matching finished read whose result is
MT_TASK_ERROR raises RuntimeError, carried here as `Except.error` with the
python message; every other read is not a completion. -/
def move_check_done (task_no : Nat) (t : MovementTaskObs) : Except String Bool :=
  if t.state = MovementState.MT_FINISHED ∧ (t.no = task_no ∨ task_no = 0) then
    if t.result = MovementResult.MT_TASK_ERROR then
      Except.error ("导航失败：错误码 " ++ toString t.result_value)
    else Except.ok true
  else Except.ok false

/-- One iteration's inputs to RobotClient._poll_task_status: the stop
signal value checked at the top of the loop, and the outcome of the
(internally retried) status read for this tick. -/
structure PollIter (σ : Type) where
  stop_set : Bool
  query : Except String σ
deriving Repr

/-- How one call to RobotClient._poll_task_status ends: success with the
final status read, InterruptedError after observing the stop signal, or
TimeoutError. -/
inductive PollResult (σ : Type)
  | success (st : σ)
  | interrupted
  | timeout
deriving Repr

/-- Loop body of RobotClient._poll_task_status over the observation oracle,
with `i` the elapsed seconds (one tick per iteration) and structural fuel
`timeout_s + 1 - i`. Each iteration: if the stop event is set, issue a
controller cancel and raise InterruptedError; else if `timeout_s ≤ elapsed`
raise TimeoutError (no cancel is issued on this path); else read the
status; a read failure is swallowed and polling continues; on a successful
read the check_done function runs INSIDE the same try block, so an error it
raises is also swallowed and polling continues; check_done true returns the
status. The Nat of the result counts controller-side cancel commands
issued by the call. -/
def poll_loop {σ : Type} (check_done : σ → Except String Bool) (obs : Nat → PollIter σ)
    (timeout_s : Nat) : Nat → Nat → PollResult σ × Nat
  | _, 0 => (PollResult.timeout, 0)
  | i, fuel + 1 =>
      if (obs i).stop_set then (PollResult.interrupted, 1)
      else if timeout_s ≤ i then (PollResult.timeout, 0)
      else
        match (obs i).query with
        | Except.error _ => poll_loop check_done obs timeout_s (i + 1) fuel
        | Except.ok st =>
            match check_done st with
            | Except.error _ => poll_loop check_done obs timeout_s (i + 1) fuel
            | Except.ok true => (PollResult.success st, 0)
            | Except.ok false => poll_loop check_done obs timeout_s (i + 1) fuel

/-- RobotClient._poll_task_status from tick 0; the fuel `timeout_s + 1`
is exactly the number of iterations the loop can run before the timeout
branch fires, so the fuel-exhaustion branch of `poll_loop` is never the
one observed. -/
def poll_task_status {σ : Type} (check_done : σ → Except String Bool)
    (obs : Nat → PollIter σ) (timeout_s : Nat) : PollResult σ × Nat :=
  poll_loop check_done obs timeout_s 0 (timeout_s + 1)

/-- RobotClient.move_to_station: the precheck read cancels a currently
running movement task if it sees one (best effort, failures swallowed);
then the command write is issued and `_poll_task_status` runs with
`move_check_done`. The result pairs the poll outcome with the total count
of controller-side cancel commands issued during the call. Event emission
(started / progress / step_done) is not tracked here. -/
def move_to_station (precheck : Except String MovementTaskObs) (task_no : Nat)
    (obs : Nat → PollIter MovementTaskObs) (timeout_s : Nat) :
    PollResult MovementTaskObs × Nat :=
  let pre_cancel : Nat :=
    match precheck with
    | Except.ok info => if info.state = MovementState.MT_RUNNING then 1 else 0
    | Except.error _ => 0
  let r := poll_task_status (move_check_done task_no) obs timeout_s
  (r.1, pre_cancel + r.2)

/-- Completion check RobotClient.start_charge hands to the poller:
`lambda is_charging: bool(is_charging)`. -/
def charge_check_done (is_charging : Bool) : Except String Bool :=
  Except.ok is_charging

/-- RobotClient.start_charge as a function of the initial successful
is_charging() read and the poll oracle. Returns the list of lifecycle
event types emitted (progress events not tracked), the number of charge
command writes issued, and the poll outcome (`none` when no polling
happened at all). -/
def start_charge (charging_now : Bool) (obs : Nat → PollIter Bool) (timeout_s : Nat) :
    List String × Nat × Option (PollResult Bool × Nat) :=
  if charging_now then (["step_done"], 0, none)
  else
    let r := poll_task_status charge_check_done obs timeout_s
    let evs :=
      match r.1 with
      | PollResult.success _ => ["started", "step_done"]
      | _ => ["started"]
    (evs, 1, some r)

/-! ## Transient-error retry (robot_client.py, sr_modbus_sdk.py) -/

/-- Contiguous-sublist (python `in` on strings) test on character lists. -/
def containsPat : List Char → List Char → Bool
  | pat, [] => pat.isEmpty
  | pat, c :: rest => pat.isPrefixOf (c :: rest) || containsPat pat rest

/-- Transient-symptom test of RobotClient._retry_on_modbus_error:
`any(kw in err_msg for kw in ["Modbus Error", "ConnectionError", "SlaveFailure", "0 received"])`. -/
def isTransientMsg (msg : String) : Bool :=
  ["Modbus Error", "ConnectionError", "SlaveFailure", "0 received"].any
    (fun kw => containsPat kw.toList msg.toList)

/-- Attempt loop of RobotClient._retry_on_modbus_error over the oracle of
per-attempt outcomes: return the first success; a transient failure
retries while attempts remain, any other failure (or the last attempt)
surfaces the error. -/
def retry_go {α : Type} (attempts : Nat → Except String α) (max_retries : Nat) :
    Nat → Nat → Except String α
  | _, 0 => Except.error ""
  | i, fuel + 1 =>
      match attempts i with
      | Except.ok v => Except.ok v
      | Except.error e =>
          if isTransientMsg e ∧ i + 1 < max_retries then
            retry_go attempts max_retries (i + 1) fuel
          else Except.error e

/-- RobotClient._retry_on_modbus_error; `none` is the python fall-through
when max_retries = 0 (the function body then returns None — never the case
in the repo, where every call site uses the default bound of 3). -/
def retry_on_modbus_error {α : Type} (attempts : Nat → Except String α)
    (max_retries : Nat) : Option (Except String α) :=
  if max_retries = 0 then none else some (retry_go attempts max_retries 0 max_retries)

/-- One attempt of SRModbusSdk.read_registers_function, collapsed to its
three exits: a successful decode; a ConnectionError (covering the failed
connection check, a Modbus error response, and a reply without registers,
all of which that function raises as ConnectionError and retries); or a
generic exception with its message. -/
inductive ReadAttempt (α : Type)
  | ok (v : α)
  | connErr (msg : String)
  | otherErr (msg : String)
deriving Repr, DecidableEq

/-- Network-symptom test on a generic exception message inside
read_registers_function: `"Incomplete message" in msg or "0 received" in
msg or "Connection" in msg`. -/
def isNetworkishMsg (msg : String) : Bool :=
  ["Incomplete message", "0 received", "Connection"].any
    (fun kw => containsPat kw.toList msg.toList)

/-- Attempt loop of SRModbusSdk.read_registers_function: a ConnectionError
retries while attempts remain and surfaces on the last one; a generic
exception retries only for network symptoms, otherwise it is wrapped into
a ConnectionError and raised immediately. -/
def read_registers_go {α : Type} (attempts : Nat → ReadAttempt α) (retry_count : Nat) :
    Nat → Nat → Except String α
  | _, 0 => Except.error ""
  | i, fuel + 1 =>
      match attempts i with
      | ReadAttempt.ok v => Except.ok v
      | ReadAttempt.connErr msg =>
          if i + 1 < retry_count then read_registers_go attempts retry_count (i + 1) fuel
          else Except.error msg
      | ReadAttempt.otherErr msg =>
          if isNetworkishMsg msg ∧ i + 1 < retry_count then
            read_registers_go attempts retry_count (i + 1) fuel
          else Except.error ("Modbus读取异常: " ++ msg)

/-- SRModbusSdk.read_registers_function over the oracle of per-attempt
outcomes (the repo always calls it with the default retry_count = 3). -/
def read_registers_function {α : Type} (attempts : Nat → ReadAttempt α)
    (retry_count : Nat) : Except String α :=
  read_registers_go attempts retry_count 0 retry_count

/-! ## Helper lemmas -/

/-- Looking up the key just written returns the written value. -/
theorem lookupA_updateA_self {β : Type} (l : List (String × β)) (k : String) (v : β) :
    lookupA (updateA l k v) k = some v := by
  induction l with
  | nil => simp [updateA, lookupA]
  | cons p rest ih =>
      obtain ⟨q, w⟩ := p
      by_cases h : q = k
      · subst h; simp [updateA, lookupA]
      · simp [updateA, lookupA, h, ih]

/-- Writing one key leaves every other key's lookup unchanged. -/
theorem lookupA_updateA_ne {β : Type} (l : List (String × β)) (k key : String) (v : β)
    (h : k ≠ key) : lookupA (updateA l k v) key = lookupA l key := by
  induction l with
  | nil => simp [updateA, lookupA, h]
  | cons p rest ih =>
      obtain ⟨q, w⟩ := p
      by_cases h2 : q = k
      · subst h2; simp [updateA, lookupA, h]
      · by_cases h3 : q = key
        · subst h3; simp [updateA, lookupA, h2]
        · simp [updateA, lookupA, h2, h3, ih]

/-- Every pair of the written list is the written pair or an original one. -/
theorem mem_updateA {β : Type} (l : List (String × β)) (k : String) (v : β) :
    ∀ p ∈ updateA l k v, p = (k, v) ∨ p ∈ l := by
  induction l with
  | nil => intro p hp; simp [updateA] at hp; left; exact hp
  | cons q rest ih =>
      obtain ⟨q1, w⟩ := q
      intro p hp
      by_cases h : q1 = k
      · subst h
        simp [updateA] at hp
        rcases hp with h1 | h1
        · exact Or.inl h1
        · exact Or.inr (List.mem_cons_of_mem _ h1)
      · simp [updateA, h, List.mem_cons] at hp
        rcases hp with h1 | h1
        · exact Or.inr (by rw [h1]; exact List.mem_cons_self _ _)
        · rcases ih p h1 with h2 | h2
          · exact Or.inl h2
          · exact Or.inr (List.mem_cons_of_mem _ h2)

/-- A successful lookup exhibits a member of the association list. -/
theorem lookupA_mem {β : Type} (l : List (String × β)) (k : String) (v : β)
    (h : lookupA l k = some v) : (k, v) ∈ l := by
  induction l with
  | nil => simp [lookupA] at h
  | cons q rest ih =>
      obtain ⟨q1, w⟩ := q
      by_cases h2 : q1 = k
      · subst h2
        simp [lookupA] at h
        rw [h]
        exact List.mem_cons_self _ _
      · simp only [lookupA, if_neg h2] at h
        exact List.mem_cons_of_mem _ (ih h)

/-- Retention truncation only removes elements (it yields a sublist). -/
theorem retainTail_sublist (cap : Nat) (l : List VoiceEvent) :
    List.Sublist (retainTail cap l) l := by
  unfold retainTail
  split
  · split
    · exact List.Sublist.refl l
    · exact List.drop_sublist _ l
  · exact List.Sublist.refl l

/-- Retention truncation drops only from the head (it yields a suffix). -/
theorem retainTail_suffix (cap : Nat) (l : List VoiceEvent) :
    List.IsSuffix (retainTail cap l) l := by
  unfold retainTail
  split
  · split
    · exact List.suffix_refl l
    · exact List.drop_suffix _ l
  · exact List.suffix_refl l

/-- Truncating after an append always keeps the appended last element, and
what precedes it is a sublist of the original prefix. -/
theorem retainTail_append (cap : Nat) (l : List VoiceEvent) (ev : VoiceEvent) :
    ∃ l2, retainTail cap (l ++ [ev]) = l2 ++ [ev] ∧ List.Sublist l2 l := by
  by_cases hlen : cap < (l ++ [ev]).length
  · by_cases hcap : cap = 0
    · exact ⟨l, by simp [retainTail, hlen, hcap], List.Sublist.refl l⟩
    · have hle : (l ++ [ev]).length - cap ≤ l.length := by
        simp only [List.length_append, List.length_singleton]
        omega
      refine ⟨l.drop ((l ++ [ev]).length - cap), ?_, List.drop_sublist _ _⟩
      simp only [retainTail, if_pos hlen, if_neg hcap]
      exact List.drop_append_of_le_length hle
  · refine ⟨l, ?_, List.Sublist.refl l⟩
    simp only [retainTail, if_neg hlen]

/-- The empty stream satisfies the per-stream invariant. -/
theorem streamInv_empty (rid : String) :
    streamInv { request_id := rid, events := [], done := false, last_event_id := 0 } := by
  constructor
  · exact List.Pairwise.nil
  · intro e he; simp at he

/-- The stream `emit` reads (the registered one, or the fresh empty one)
satisfies the invariant whenever the bus does. -/
theorem streamInv_getD (b : EventBus) (rid : String) (hinv : busInv b) :
    streamInv ((lookupA b.streams rid).getD
      { request_id := rid, events := [], done := false, last_event_id := 0 }) := by
  cases hl : lookupA b.streams rid with
  | none => simpa using streamInv_empty rid
  | some s => simpa using hinv (rid, s) (lookupA_mem _ _ _ hl)

/-- EventBus.emit preserves the bus invariant: the new event's id is
strictly above every retained id, and truncation only removes elements. -/
theorem busInv_emit (b : EventBus) (rid t sp : String) (d : List (String × String))
    (hinv : busInv b) : busInv (b.emit rid t sp d).1 := by
  intro p hp
  simp only [EventBus.emit] at hp
  rcases mem_updateA _ _ _ p hp with rfl | hmem
  · have hs := streamInv_getD b rid hinv
    set s := (lookupA b.streams rid).getD
      { request_id := rid, events := [], done := false, last_event_id := 0 } with hsdef
    constructor
    · refine List.Pairwise.sublist (retainTail_sublist _ _) ?_
      rw [List.pairwise_append]
      refine ⟨hs.1, List.pairwise_singleton _ _, ?_⟩
      intro a ha e he
      simp only [List.mem_singleton] at he
      subst he
      exact Nat.lt_succ_of_le (hs.2 a ha)
    · intro e he
      have hmem2 := (retainTail_sublist _ _).subset he
      rcases List.mem_append.mp hmem2 with h1 | h2
      · exact Nat.le_succ_of_le (hs.2 e h1)
      · simp only [List.mem_singleton] at h2
        subst h2
        exact Nat.le_refl _
  · exact hinv p hmem

/-- EventBus.mark_done preserves the bus invariant (only the done flag of
one stream changes). -/
theorem busInv_mark_done (b : EventBus) (rid : String) (done : Bool)
    (hinv : busInv b) : busInv (b.mark_done rid done) := by
  intro p hp
  simp only [EventBus.mark_done] at hp
  rcases mem_updateA _ _ _ p hp with rfl | hmem
  · exact streamInv_getD b rid hinv
  · exact hinv p hmem

/-- Under the bus invariant, every list get_events returns is strictly
increasing in event_id (filter and take of a strictly increasing list). -/
theorem get_events_pairwise (b : EventBus) (rid : String) (after limit : Nat)
    (hinv : busInv b) :
    (b.get_events rid after limit).1.Pairwise (fun a e => a.event_id < e.event_id) := by
  unfold EventBus.get_events
  cases hl : lookupA b.streams rid with
  | none => simp
  | some s =>
      have hs := hinv (rid, s) (lookupA_mem _ _ _ hl)
      simp only
      have hfil : (s.events.filter fun e => decide (after < e.event_id)).Pairwise
          (fun a e => a.event_id < e.event_id) :=
        List.Pairwise.sublist (List.filter_sublist _) hs.1
      split
      · exact List.Pairwise.sublist (List.take_sublist _ _) hfil
      · exact hfil

/-- The stream mark_done writes is registered with its done flag set. -/
theorem mark_done_lookup (b : EventBus) (rid : String) :
    ∃ s, lookupA (b.mark_done rid true).streams rid = some s ∧ s.done = true :=
  ⟨_, lookupA_updateA_self _ _ _, rfl⟩

/-- If every tick up to the deadline neither observes the stop signal nor
satisfies check_done, the poll loop ends in the timeout branch with no
controller cancel issued. -/
theorem poll_loop_timeout {σ : Type} (c : σ → Except String Bool) (obs : Nat → PollIter σ)
    (timeout_s : Nat)
    (h : ∀ k, k ≤ timeout_s → (obs k).stop_set = false ∧
         ∀ st, (obs k).query = Except.ok st → c st ≠ Except.ok true) :
    ∀ fuel i, i + fuel = timeout_s + 1 →
      poll_loop c obs timeout_s i fuel = (PollResult.timeout, 0) := by
  intro fuel
  induction fuel with
  | zero => intro i hi; rfl
  | succ n ih =>
      intro i hi
      have hik : i ≤ timeout_s := by omega
      obtain ⟨hstop, hq⟩ := h i hik
      by_cases ht : timeout_s ≤ i
      · simp [poll_loop, hstop, ht]
      · simp only [poll_loop, hstop, Bool.false_eq_true, if_false, if_neg ht]
        cases hq2 : (obs i).query with
        | error e =>
            dsimp only
            exact ih (i + 1) (by omega)
        | ok st =>
            dsimp only
            cases hc : c st with
            | error e =>
                dsimp only
                exact ih (i + 1) (by omega)
            | ok bv =>
                cases bv with
                | true => exact absurd hc (hq st hq2)
                | false =>
                    dsimp only
                    exact ih (i + 1) (by omega)

/-! ## Claim theorems -/

/-- Claim C1, counterexample: the claimed invariant — at most one running
Job per session_id under any interleaving of start(), cancel_session_job()
and job-thread completions — is false. After the interleaving
start("A","s"); start("B","s") (job A's thread has not yet run), both
distinct jobs "A" and "B" carry session "s" with status running
simultaneously: start() only sets the prior job's stop event and leaves
its status running. -/
theorem c1_counterexample :
    let st := execOps [JMOp.start "A" "s", JMOp.start "B" "s"]
    lookupA st.1.jobs "A" =
      some { request_id := "A", session_id := "s", status := JobStatus.running,
             error := none, result_text := none, stop_event := true } ∧
    lookupA st.1.jobs "B" =
      some { request_id := "B", session_id := "s", status := JobStatus.running,
             error := none, result_text := none, stop_event := false } ∧
    ("A" : String) ≠ "B" := by
  refine ⟨rfl, rfl, ?_⟩
  decide

/-- Claim C1, amended: when start() registers a new job on a session whose
index maps to a (distinct) job that is still running, the prior job's
cancel signal (stop_event) is set before the new running job is registered
and the session index is repointed at the new request; the prior job's
status however remains `running` until its own thread observes the signal,
so two same-session jobs can briefly both be running. -/
theorem c1_prior_job_signalled (m : JobManager) (request_id session_id old_req : String)
    (old : JobInfo)
    (hmap : lookupA m.session_to_request session_id = some old_req)
    (hjob : lookupA m.jobs old_req = some old)
    (hrun : old.status = JobStatus.running)
    (hne : old_req ≠ request_id) :
    lookupA (m.start request_id session_id).jobs old_req = some { old with stop_event := true } ∧
    lookupA (m.start request_id session_id).session_to_request session_id = some request_id ∧
    lookupA (m.start request_id session_id).jobs request_id =
      some { request_id := request_id, session_id := session_id, status := JobStatus.running,
             error := none, result_text := none, stop_event := false } := by
  simp only [JobManager.start, hmap, hjob, hrun, if_pos]
  refine ⟨?_, ?_, ?_⟩
  · rw [lookupA_updateA_ne _ _ _ _ (Ne.symm hne)]
    exact lookupA_updateA_self _ _ _
  · exact lookupA_updateA_self _ _ _
  · exact lookupA_updateA_self _ _ _

/-- Claim C1, witness for the amended theorem at a concrete state with a
running prior job. -/
theorem c1_witness :
    lookupA (JobManager.session_to_request
      { jobs := [("A", { request_id := "A", session_id := "s", status := JobStatus.running,
                         error := none, result_text := none, stop_event := false })],
        session_to_request := [("s", "A")] }) "s" = some "A" ∧
    lookupA ((JobManager.start
      { jobs := [("A", { request_id := "A", session_id := "s", status := JobStatus.running,
                         error := none, result_text := none, stop_event := false })],
        session_to_request := [("s", "A")] } "B" "s")).jobs "A" =
      some { request_id := "A", session_id := "s", status := JobStatus.running,
             error := none, result_text := none, stop_event := true } := by
  have h := c1_prior_job_signalled
    { jobs := [("A", { request_id := "A", session_id := "s", status := JobStatus.running,
                       error := none, result_text := none, stop_event := false })],
      session_to_request := [("s", "A")] } "B" "s" "A"
    { request_id := "A", session_id := "s", status := JobStatus.running,
      error := none, result_text := none, stop_event := false }
    rfl rfl rfl (by decide)
  exact ⟨rfl, h.1⟩

/-- Claim C2, counterexample: a RobotClient.move_to_station call whose
polling never observes a finished matching state times out WITHOUT issuing
any controller-side cancel: with no running task at precheck, task number
5, a controller stuck on MT_RUNNING and timeout 2, the call raises
TimeoutError and the count of cancel commands issued is 0, not the ≥ 1
the claim requires. -/
theorem c2_counterexample :
    move_to_station (Except.ok ⟨MovementState.MT_NA, 0, MovementResult.MT_TASK_NA, 0⟩) 5
      (fun _ => ⟨false, Except.ok ⟨MovementState.MT_RUNNING, 5, MovementResult.MT_TASK_NA, 0⟩⟩) 2 =
      (PollResult.timeout, 0) := rfl

/-- Claim C2, amended: a move_to_station call whose precheck does not see a
running task and whose polling, before the deadline, never observes the
stop signal nor a completed check raises TimeoutError and issues NO
controller-side cancel command (the cancel-on-timeout of
SRModbusSdk.wait_movement_task_finish is not in this call path; polling
only cancels when the stop signal is observed). -/
theorem c2_timeout_no_cancel (precheck : Except String MovementTaskObs) (task_no : Nat)
    (obs : Nat → PollIter MovementTaskObs) (timeout_s : Nat)
    (hpre : ∀ info, precheck = Except.ok info → info.state ≠ MovementState.MT_RUNNING)
    (h : ∀ k, k ≤ timeout_s → (obs k).stop_set = false ∧
         ∀ st, (obs k).query = Except.ok st → move_check_done task_no st ≠ Except.ok true) :
    move_to_station precheck task_no obs timeout_s = (PollResult.timeout, 0) := by
  have hp := poll_loop_timeout (move_check_done task_no) obs timeout_s h (timeout_s + 1) 0
    (by omega)
  unfold move_to_station poll_task_status
  rw [hp]
  cases precheck with
  | ok info => simp [hpre info rfl]
  | error e => simp

/-- Claim C2, witness for the amended theorem: idle precheck, controller
stuck on MT_RUNNING, timeout 2. -/
theorem c2_witness :
    move_to_station (Except.ok ⟨MovementState.MT_NA, 0, MovementResult.MT_TASK_NA, 0⟩) 7
      (fun _ => ⟨false, Except.ok ⟨MovementState.MT_RUNNING, 7, MovementResult.MT_TASK_NA, 0⟩⟩) 3 =
      (PollResult.timeout, 0) := by
  refine c2_timeout_no_cancel _ 7 _ 3 ?_ ?_
  · intro info hinfo
    cases hinfo
    decide
  · intro k hk
    refine ⟨rfl, ?_⟩
    intro st hst
    cases hst
    simp [move_check_done]

/-- Claim C3: for a session holding a job-manager reference and a set
(non-empty) active_request_id, is_busy() returns true exactly when the job
manager holds that job with status running; whenever it returns false
(job absent or not running) it has cleared active_request_id as a side
effect, and when it returns true the session is left unchanged. -/
theorem c3_is_busy_self_heal (s : SessionState) (m : JobManager) (rid : String)
    (hjm : s.job_manager = some m)
    (hrid : s.active_request_id = some rid)
    (hne : rid ≠ "") :
    ((s.is_busy).1 = true ↔ ∃ job, m.get rid = some job ∧ job.status = JobStatus.running) ∧
    ((s.is_busy).1 = false → (s.is_busy).2.active_request_id = none) ∧
    ((s.is_busy).1 = true → (s.is_busy).2 = s) := by
  cases hg : m.get rid with
  | none => simp [SessionState.is_busy, hrid, hne, hjm, hg]
  | some job =>
      by_cases hst : job.status = JobStatus.running
      · simp [SessionState.is_busy, hrid, hne, hjm, hg, hst]
      · simp [SessionState.is_busy, hrid, hne, hjm, hg, hst]

/-- Claim C3, witness: a session whose recorded job has finished (status
completed) is reported not busy and its stale active_request_id is
cleared. -/
theorem c3_witness :
    let jobDone : JobInfo :=
      { request_id := "r1", session_id := "s1", status := JobStatus.completed,
        error := none, result_text := none, stop_event := false }
    let m : JobManager := { jobs := [("r1", jobDone)], session_to_request := [] }
    let s : SessionState :=
      { session_id := "s1", active_request_id := some "r1", job_manager := some m }
    (s.is_busy).1 = false ∧ (s.is_busy).2.active_request_id = none := by
  intro jobDone m s
  have h := c3_is_busy_self_heal s m "r1" rfl rfl (by decide)
  refine ⟨?_, ?_⟩
  · cases hb : (s.is_busy).1 with
    | false => rfl
    | true =>
        obtain ⟨job, hjob, hrun⟩ := h.1.mp hb
        cases hjob
        cases hrun
  · cases hb : (s.is_busy).1 with
    | false => exact h.2.1 hb
    | true =>
        obtain ⟨job, hjob, hrun⟩ := h.1.mp hb
        cases hjob
        cases hrun

/-- Claim C4: for every registered job, the thread wrapper of
JobManager.start behaves as claimed on both exit paths: a raised runner
error is captured (the wrapper is a total function — nothing propagates to
the caller of start()) into status failed with the message in error; a
normal return yields status completed when the job was still running and
leaves it cancelled when a canceller already set that; and on every exit
path mark_done was applied to the event log for the request and on_cleanup
was invoked. -/
theorem c4_run_wrapper_contract (m : JobManager) (bus : EventBus)
    (request_id session_id : String) (job : JobInfo) (outcome : RunnerOutcome)
    (hjob : lookupA m.jobs request_id = some job) :
    ((m.run_wrapper bus request_id session_id outcome).2.2 = true) ∧
    (∃ s, lookupA (m.run_wrapper bus request_id session_id outcome).2.1.streams request_id =
        some s ∧ s.done = true) ∧
    (∀ e, outcome = RunnerOutcome.err e →
       lookupA (m.run_wrapper bus request_id session_id outcome).1.jobs request_id =
         some { job with status := JobStatus.failed, error := some e }) ∧
    (∀ res, outcome = RunnerOutcome.ok res → job.status = JobStatus.running →
       lookupA (m.run_wrapper bus request_id session_id outcome).1.jobs request_id =
         some { job with status := JobStatus.completed, result_text := res }) ∧
    (∀ res, outcome = RunnerOutcome.ok res → job.status = JobStatus.cancelled →
       lookupA (m.run_wrapper bus request_id session_id outcome).1.jobs request_id =
         some { job with status := JobStatus.cancelled, result_text := res }) := by
  have hjobs : ∀ (m1 : JobManager),
      (if lookupA m1.session_to_request session_id = some request_id then
        { m1 with session_to_request := removeA m1.session_to_request session_id }
       else m1).jobs = m1.jobs := by
    intro m1
    split <;> rfl
  cases outcome with
  | ok res =>
      refine ⟨rfl, ⟨_, lookupA_updateA_self _ _ _, rfl⟩, ?_, ?_, ?_⟩
      · intro e he
        cases he
      · intro res2 hres hrun
        cases hres
        simp only [JobManager.run_wrapper, hjob, hrun]
        split <;> exact lookupA_updateA_self _ _ _
      · intro res2 hres hcan
        cases hres
        simp [JobManager.run_wrapper, hjob, hcan]
        split <;> exact lookupA_updateA_self _ _ _
  | err e0 =>
      refine ⟨rfl, ⟨_, lookupA_updateA_self _ _ _, rfl⟩, ?_, ?_, ?_⟩
      · intro e he
        cases he
        simp only [JobManager.run_wrapper, hjob]
        split <;> exact lookupA_updateA_self _ _ _
      · intro res hres
        cases hres
      · intro res hres
        cases hres

/-- Claim C4, witness: an error outcome "boom" on a registered running job
ends with status failed, the error recorded, the stream marked done and
the cleanup flag set. -/
theorem c4_witness :
    let jobRun : JobInfo :=
      { request_id := "r1", session_id := "s1", status := JobStatus.running,
        error := none, result_text := none, stop_event := false }
    let m : JobManager := { jobs := [("r1", jobRun)], session_to_request := [("s1", "r1")] }
    let bus : EventBus := { retention_max := 2000, streams := [] }
    ((m.run_wrapper bus "r1" "s1" (RunnerOutcome.err "boom")).2.2 = true) ∧
    lookupA (m.run_wrapper bus "r1" "s1" (RunnerOutcome.err "boom")).1.jobs "r1" =
      some { request_id := "r1", session_id := "s1", status := JobStatus.failed,
             error := some "boom", result_text := none, stop_event := false } := by
  intro jobRun m bus
  have h := c4_run_wrapper_contract m bus "r1" "s1" jobRun (RunnerOutcome.err "boom") rfl
  exact ⟨h.1, h.2.2.1 "boom" rfl⟩

/-- Claim C5, evaluated at the failing input (code bug): the completion
check of move_to_station correctly reports success only on a matching
finished read (conjunct 3 shows a finished read with a foreign task number
is not a completion), and on a matching finished read with the error
result it does raise the task-execution error carrying the controller's
result code (conjunct 1); but _poll_task_status runs check_done inside the
same try block as the status read, so that RuntimeError is swallowed as if
it were a communication fault and polling continues until TimeoutError
(conjunct 2) — the error never propagates from move_to_station as the
claim (and SRModbusSdk.wait_movement_task_finish) say it must. Conjunct 4
shows a mismatched finished read at tick 0 merely continues polling and
the matching read at tick 1 then succeeds. -/
theorem c5_task_error_swallowed :
    move_check_done 5 ⟨MovementState.MT_FINISHED, 5, MovementResult.MT_TASK_ERROR, 7⟩ =
      Except.error "导航失败：错误码 7" ∧
    poll_task_status (move_check_done 5)
      (fun _ => ⟨false, Except.ok ⟨MovementState.MT_FINISHED, 5, MovementResult.MT_TASK_ERROR, 7⟩⟩)
      2 = (PollResult.timeout, 0) ∧
    move_check_done 5 ⟨MovementState.MT_FINISHED, 4, MovementResult.MT_TASK_FINISHED, 0⟩ =
      Except.ok false ∧
    poll_task_status (move_check_done 5)
      (fun i => if i = 0
        then ⟨false, Except.ok ⟨MovementState.MT_FINISHED, 4, MovementResult.MT_TASK_FINISHED, 0⟩⟩
        else ⟨false, Except.ok ⟨MovementState.MT_FINISHED, 5, MovementResult.MT_TASK_FINISHED, 0⟩⟩)
      30 =
      (PollResult.success ⟨MovementState.MT_FINISHED, 5, MovementResult.MT_TASK_FINISHED, 0⟩, 0) :=
  ⟨rfl, rfl, rfl, rfl⟩

/-- Claim C6: with the retention cap at 3, five emits for request R leave
exactly the three most recent events (ids 3, 4, 5) and get_events(R, 0)
returns them with next_after = 5; and in general the retention truncation
yields a suffix of the appended stream, i.e. overflow drops only the
oldest events at the head, never the most recent. -/
theorem c6_retention_cap :
    (let b0 : EventBus := { retention_max := 3, streams := [] }
     let b1 := (b0.emit "R" "progress" "" []).1
     let b2 := (b1.emit "R" "progress" "" []).1
     let b3 := (b2.emit "R" "progress" "" []).1
     let b4 := (b3.emit "R" "progress" "" []).1
     let b5 := (b4.emit "R" "progress" "" []).1
     (b5.get_events "R" 0 200).1 =
       [{ event_id := 3, type := "progress", speak_text := "", data := [] },
        { event_id := 4, type := "progress", speak_text := "", data := [] },
        { event_id := 5, type := "progress", speak_text := "", data := [] }] ∧
     (b5.get_events "R" 0 200).2.2 = 5) ∧
    ∀ (cap : Nat) (evs : List VoiceEvent), List.IsSuffix (retainTail cap evs) evs :=
  ⟨⟨rfl, rfl⟩, fun cap evs => retainTail_suffix cap evs⟩

/-- Claim C7: under the bus invariant, emit assigns event id 1 to a fresh
stream and exactly `last_event_id + 1` to an existing one, records that id
back as the stream's last_event_id (so consecutive emits increase by
exactly 1), preserves the invariant, and every list get_events returns is
strictly increasing in event_id. -/
theorem c7_event_id_monotone (b : EventBus) (rid rid2 t sp : String)
    (d : List (String × String)) (after limit : Nat) (hinv : busInv b) :
    busInv (b.emit rid t sp d).1 ∧
    (b.emit rid t sp d).2.event_id =
      (match lookupA b.streams rid with
       | none => 1
       | some s => s.last_event_id + 1) ∧
    (∃ s2, lookupA (b.emit rid t sp d).1.streams rid = some s2 ∧
       s2.last_event_id = (b.emit rid t sp d).2.event_id) ∧
    (b.get_events rid2 after limit).1.Pairwise (fun a e => a.event_id < e.event_id) := by
  refine ⟨busInv_emit b rid t sp d hinv, ?_, ?_, get_events_pairwise b rid2 after limit hinv⟩
  · cases hl : lookupA b.streams rid <;> simp [EventBus.emit, hl]
  · exact ⟨_, lookupA_updateA_self _ _ _, rfl⟩

/-- Claim C7, witness: the empty bus satisfies the invariant and the first
emit on a fresh stream gets event id 1. -/
theorem c7_witness :
    busInv (EventBus.mk 3 []) ∧
    ((EventBus.mk 3 []).emit "R" "started" "go" []).2.event_id = 1 := by
  have hinv : busInv (EventBus.mk 3 []) := by
    intro p hp
    cases hp
  have h := c7_event_id_monotone (EventBus.mk 3 []) "R" "R" "started" "go" [] 0 200 hinv
  exact ⟨hinv, h.2.1⟩

/-- Claim C8: a register read whose first two attempts fail with
known-transient symptoms and whose third succeeds completes normally with
no error surfaced, through both retry layers — RobotClient's
_retry_on_modbus_error and SRModbusSdk.read_registers_function, each with
its bound of 3 attempts; and when all 3 attempts fail transiently the
error is surfaced (the bound is really 3). -/
theorem c8_transient_read_retry {α : Type} (attempts : Nat → Except String α)
    (rd : Nat → ReadAttempt α) (e0 e1 m0 m1 : String) (v w : α)
    (h0 : attempts 0 = Except.error e0) (ht0 : isTransientMsg e0 = true)
    (h1 : attempts 1 = Except.error e1) (ht1 : isTransientMsg e1 = true)
    (h2 : attempts 2 = Except.ok v)
    (g0 : rd 0 = ReadAttempt.connErr m0) (g1 : rd 1 = ReadAttempt.connErr m1)
    (g2 : rd 2 = ReadAttempt.ok w) :
    retry_on_modbus_error attempts 3 = some (Except.ok v) ∧
    read_registers_function rd 3 = Except.ok w ∧
    retry_on_modbus_error (fun _ => (Except.error "Modbus Error" : Except String α)) 3 =
      some (Except.error "Modbus Error") := by
  refine ⟨?_, ?_, rfl⟩
  · simp [retry_on_modbus_error, retry_go, h0, h1, h2, ht0, ht1]
  · simp [read_registers_function, read_registers_go, g0, g1, g2]

/-- Claim C8, witness: two transient failures then success succeed through
both layers at concrete inputs. -/
theorem c8_witness :
    retry_on_modbus_error
      (fun i => if i = 0 then Except.error "Modbus Error: Invalid Message"
        else if i = 1 then Except.error "SlaveFailure" else Except.ok (42 : Nat)) 3 =
      some (Except.ok 42) ∧
    read_registers_function
      (fun i => if i = 0 then ReadAttempt.connErr "Incomplete message"
        else if i = 1 then ReadAttempt.connErr "0 received" else ReadAttempt.ok (7 : Nat)) 3 =
      Except.ok 7 := by
  have h := c8_transient_read_retry
    (fun i => if i = 0 then Except.error "Modbus Error: Invalid Message"
      else if i = 1 then Except.error "SlaveFailure" else Except.ok (42 : Nat))
    (fun i => if i = 0 then ReadAttempt.connErr "Incomplete message"
      else if i = 1 then ReadAttempt.connErr "0 received" else ReadAttempt.ok (7 : Nat))
    "Modbus Error: Invalid Message" "SlaveFailure" "Incomplete message" "0 received"
    42 7 rfl rfl rfl rfl rfl rfl rfl rfl
  exact ⟨h.1, h.2.1⟩

/-- Claim C9: mark_done freezes nothing: an emit issued after
mark_done(request) still appends, is assigned the next event id
(last_event_id + 1), and get_events from the pre-emit cursor returns
exactly that post-done event together with done = true. -/
theorem c9_emit_after_done (b : EventBus) (rid t sp : String) (d : List (String × String))
    (hinv : busInv b) :
    let s0 := (lookupA b.streams rid).getD
      { request_id := rid, events := [], done := false, last_event_id := 0 }
    let p := (b.mark_done rid true).emit rid t sp d
    p.2.event_id = s0.last_event_id + 1 ∧
    p.1.get_events rid s0.last_event_id 200 = ([p.2], true, p.2.event_id) := by
  intro s0 p
  have hs0 : streamInv s0 := streamInv_getD b rid hinv
  have hlook1 : lookupA (b.mark_done rid true).streams rid = some { s0 with done := true } :=
    lookupA_updateA_self _ _ _
  have hev : p.2 = { event_id := s0.last_event_id + 1, type := t, speak_text := sp, data := d } := by
    show ((b.mark_done rid true).emit rid t sp d).2 = _
    simp [EventBus.emit, hlook1]
  refine ⟨by rw [hev], ?_⟩
  have hstreams : p.1.streams =
      updateA (b.mark_done rid true).streams rid
        { request_id := s0.request_id,
          events := retainTail (b.mark_done rid true).retention_max (s0.events ++ [p.2]),
          done := true, last_event_id := s0.last_event_id + 1 } := by
    show ((b.mark_done rid true).emit rid t sp d).1.streams = _
    simp [EventBus.emit, hlook1, hev]
  obtain ⟨l2, hl2, hsub⟩ := retainTail_append (b.mark_done rid true).retention_max s0.events p.2
  have hnil : l2.filter (fun e => decide (s0.last_event_id < e.event_id)) = [] := by
    rw [List.filter_eq_nil_iff]
    intro a ha
    have hle : a.event_id ≤ s0.last_event_id := hs0.2 a (hsub.subset ha)
    simp
    omega
  show EventBus.get_events _ _ _ _ = _
  rw [EventBus.get_events]
  rw [hstreams, lookupA_updateA_self]
  simp only [hl2, List.filter_append, hnil, List.nil_append]
  rw [hev]
  simp

/-- Claim C9, witness: on a fresh bus, mark_done then emit appends event 1
and get_events returns it with done = true. -/
theorem c9_witness :
    let b0 : EventBus := { retention_max := 3, streams := [] }
    let p := (b0.mark_done "R" true).emit "R" "completed" "全部完成" []
    p.2.event_id = 1 ∧ p.1.get_events "R" 0 200 = ([p.2], true, p.2.event_id) := by
  intro b0 p
  have hinv : busInv b0 := by
    intro q hq
    cases hq
  exact c9_emit_after_done b0 "R" "completed" "全部完成" [] hinv

/-- Claim C10: a start_charge call made while the controller already
reports charging emits exactly one step_done event and returns: it writes
no charge command, performs no polling, and (having no poll outcome at
all) cannot raise TimeoutError. -/
theorem c10_start_charge_short_circuit (obs : Nat → PollIter Bool) (timeout_s : Nat) :
    start_charge true obs timeout_s = (["step_done"], 0, none) := rfl

end FunctionalCall
